import Mathlib

set_option autoImplicit false

/-!
Shallow embedding of the media-downloader backend (Job Orchestration Engine).

The TypeScript source keeps per-job state in in-memory maps and mutates it
from subprocess event handlers.  Here the registry and the on-disk state are
modelled as association lists, subprocess outcomes (exit codes, info-query
results, tag-write results) are explicit parameters, and each handler becomes
a pure function from the old state to the new state.  Timestamps
(lastUpdated) are elided: they are wall-clock values touched on every
mutation and carry no logical content.
-/

namespace Testelemel

/-- A flat file-system (or registry) view: an association list from a path
(or key) to a payload.  Mirrors the JS Map / on-disk directory used by the
controllers. -/
abbrev FS (α : Type) : Type := List (String × α)

namespace FS

variable {α : Type}

/-- Look up the payload stored at a path (fs.existsSync / Map.get). -/
def lookup : FS α → String → Option α
  | [], _ => none
  | (k, v) :: fs, p => if k = p then some v else lookup fs p

/-- Remove any entry at a path (fs.unlinkSync / fs.promises.unlink). -/
def erase : FS α → String → FS α
  | [], _ => []
  | (k, v) :: fs, p => if k = p then erase fs p else (k, v) :: erase fs p

/-- Write a payload at a path, replacing any previous entry
(fs.copyFile destination / an in-place write). -/
def set (fs : FS α) (p : String) (v : α) : FS α :=
  (p, v) :: erase fs p

/-- Move the entry at `src` to `dst` (fs.rename); a no-op when `src` is
absent. -/
def rename (fs : FS α) (src dst : String) : FS α :=
  match lookup fs src with
  | none => fs
  | some v => set (erase fs src) dst v

@[simp] theorem lookup_erase_self (fs : FS α) (p : String) :
    lookup (erase fs p) p = none := by
  induction fs with
  | nil => rfl
  | cons kv fs ih =>
    obtain ⟨k, v⟩ := kv
    by_cases h : k = p <;> simp [erase, lookup, h, ih]

theorem lookup_erase_ne (fs : FS α) (p q : String) (h : q ≠ p) :
    lookup (erase fs p) q = lookup fs q := by
  induction fs with
  | nil => rfl
  | cons kv fs ih =>
    obtain ⟨k, v⟩ := kv
    by_cases hk : k = p
    · subst hk
      have hkq : ¬ k = q := fun hkq => h hkq.symm
      simp [erase, lookup, hkq, ih]
    · by_cases hq : k = q
      · subst hq
        simp [erase, lookup, hk, ih]
      · simp [erase, lookup, hk, hq, ih]

@[simp] theorem lookup_set_self (fs : FS α) (p : String) (v : α) :
    lookup (set fs p v) p = some v := by
  simp [set, lookup]

theorem lookup_set_ne (fs : FS α) (p q : String) (v : α) (h : q ≠ p) :
    lookup (set fs p v) q = lookup fs q := by
  have hpq : ¬ p = q := fun hpq => h hpq.symm
  simp [set, lookup, hpq, lookup_erase_ne fs p q h]

end FS

/-- JS truthiness of an optional string: `undefined`, `null` and the empty
string are falsy. -/
def jsTruthy (x : Option String) : Bool :=
  match x with
  | none => false
  | some s => s != ""

/-- JS `x || d` on an optional string: falls back to `d` when `x` is absent
or empty. -/
def jsOr (x : Option String) (d : String) : String :=
  match x with
  | none => d
  | some s => if s = "" then d else s

/-- JS `x || y` where both sides are optional strings (used by the tag
merge, where the fallback itself may be absent). -/
def jsOrOpt (x y : Option String) : Option String :=
  if jsTruthy x then x else y

/-- Job status enumeration of the part_003 controller
(`'queued' | 'downloading' | 'processing' | 'completed' | 'error'`). -/
inductive Status where
  | queued
  | downloading
  | processing
  | completed
  | error
  deriving DecidableEq, Repr

/-- Derived track metadata attached to a job (the `metadata` field of
`DownloadInfo` in part_003). -/
structure Meta where
  title : String
  artist : String
  album : String
  year : String
  genre : String
  comment : String
  duration : ℚ
  deriving DecidableEq, Repr

/-- One job record (`DownloadInfo` of the part_003 controller). -/
structure Download where
  id : String
  url : String
  status : Status
  progress : ℚ
  title : Option String := none
  outputPath : Option String := none
  error : Option String := none
  size : Option ℕ := none
  playlistId : Option String := none
  metadata : Option Meta := none
  deriving DecidableEq, Repr

/-- Result of the one-shot yt-dlp info query (`VideoInfo` interface); every
field is optional because the JSON may omit any of them. -/
structure VideoInfo where
  title : Option String := none
  uploader : Option String := none
  webpage_url : Option String := none
  duration : Option ℚ := none
  upload_date : Option String := none
  categories : Option (List String) := none
  deriving DecidableEq, Repr

/-- A fresh job as created by startDownload for a single URL:
status queued, progress 0, everything else unset. -/
def mkJob (id url : String) : Download :=
  { id := id, url := url, status := .queued, progress := 0 }

/-! Progress-line parsing.

executeYtDlp scrapes each stdout chunk with the JS regular expression
matching a literal "[download]", one or more whitespace characters, a run
of digits with an optional fraction, and a percent sign, capturing the
numeric part.  The functions below implement that match on a character
list, trying each start position from the left as the JS engine does. -/

/-- Whitespace class of the regex (ASCII portion of JS backslash-s). -/
def isReSpace (c : Char) : Bool :=
  c == ' ' || c == '\t' || c == '\n' || c == '\r' || c == '\x0b' || c == '\x0c'

/-- Numeric value of a run of decimal digits. -/
def digitsNat (ds : List Char) : ℕ :=
  ds.foldl (fun acc c => 10 * acc + (c.toNat - '0'.toNat)) 0

/-- Value of the captured group, integer digits plus optional fraction
(the JS side applies parseFloat to the capture). -/
def percentVal (ds frac : List Char) : ℚ :=
  (digitsNat ds : ℚ) + (digitsNat frac : ℚ) / (10 : ℚ) ^ frac.length

/-- Drop a literal prefix, or fail. -/
def dropLit : List Char → List Char → Option (List Char)
  | [], s => some s
  | _ :: _, [] => none
  | c :: cs, x :: xs => if x = c then dropLit cs xs else none

/-- Attempt the whole pattern anchored at the head of `s`: the literal
"[download]", at least one whitespace character, digits, an optional
dot-and-digits fraction, then a percent sign.  Returns the integer and
fractional digit runs of the capture group. -/
def tryMatchAt (s : List Char) : Option (List Char × List Char) :=
  match dropLit "[download]".toList s with
  | none => none
  | some rest =>
    let sp := rest.takeWhile isReSpace
    let rest1 := rest.dropWhile isReSpace
    if sp = [] then none
    else
      let ds := rest1.takeWhile Char.isDigit
      let rest2 := rest1.dropWhile Char.isDigit
      if ds = [] then none
      else
        match rest2 with
        | '%' :: _ => some (ds, [])
        | '.' :: rest3 =>
          let frac := rest3.takeWhile Char.isDigit
          let rest4 := rest3.dropWhile Char.isDigit
          match rest4 with
          | '%' :: _ => some (ds, frac)
          | _ => none
        | _ => none

/-- Leftmost match of the progress pattern in a stdout chunk (the JS
String.match search), as the captured digit runs. -/
def findPercentCapture : List Char → Option (List Char × List Char)
  | [] => none
  | c :: rest =>
    match tryMatchAt (c :: rest) with
    | some q => some q
    | none => findPercentCapture rest

/-- Leftmost match of the progress pattern, as the rational number the JS
side obtains from parseFloat of the capture. -/
def findDownloadPercent (s : List Char) : Option ℚ :=
  (findPercentCapture s).map (fun x => percentVal x.1 x.2)

/-- Word character class of the regex (ASCII backslash-w). -/
def isWordChar (c : Char) : Bool :=
  (c ≥ 'a' && c ≤ 'z') || (c ≥ 'A' && c ≤ 'Z') || (c ≥ '0' && c ≤ '9') || c == '_'

/-- JS replace of every character outside word/whitespace/hyphen by the
empty string (the filename sanitizer in handleSingleDownload). -/
def stripNonWord (s : String) : String :=
  String.mk (s.toList.filter (fun c => isWordChar c || isReSpace c || c == '-'))

/-- Output base name for a single download: the sanitized title when that
is present and non-empty, the job id otherwise. -/
def sanitizedBase (title : Option String) (id : String) : String :=
  jsOr (title.map stripNonWord) id

/-- State of the job after the pre-spawn part of handleSingleDownload:
the output path is derived from the title and progress is set to 10. -/
def handleSingleDownloadInit (downloadsDir : String) (info : VideoInfo) (d : Download) :
    Download :=
  { d with
    outputPath := some (downloadsDir ++ "/" ++ sanitizedBase info.title d.id ++ ".mp3")
    progress := 10 }

/-- Stdout data handler installed by executeYtDlp: when a chunk matches the
percentage pattern and the job is in the downloading state, progress is
rescaled onto 10 to 90 (10 + p * 0.8). -/
def executeYtDlpStdout (d : Download) (chunk : String) : Download :=
  match findDownloadPercent chunk.toList with
  | some p => if d.status = .downloading then { d with progress := 10 + p * 0.8 } else d
  | none => d

/-- Stdout data handler of the duplicated inline download block at the end
of part_003 processDownload (also the part_004 controller): the parsed
percentage is stored unscaled and without a status guard. -/
def rawStdout (d : Download) (chunk : String) : Download :=
  match findDownloadPercent chunk.toList with
  | some p => { d with progress := p }
  | none => d

/-! Close handler of the supervised extraction subprocess (part_003
onCloseCallback).  The handler reads the exit code, verifies the output
file, runs the post-download info query (with a fallback object on
failure), writes tags (ignoring the result) and finalizes the job. -/

/-- Environment of one close event: the subprocess exit code (null is
possible on signals), the outcome of the post-download info query, the
result reported by the tag writer, and the current year string used by the
fallbacks. -/
structure CloseEnv where
  exitCode : Option Int
  infoResult : Except Unit VideoInfo
  tagWriteOk : Bool
  currentYear : String

/-- Settlement of the promise wrapped around the subprocess. -/
inductive CloseOutcome where
  | resolved
  | rejected (msg : String)
  deriving DecidableEq, Repr

/-- Result of running the close handler: the new job record, the file
system (paths mapped to sizes), the promise outcome and the log lines. -/
structure CloseResult where
  download : Download
  fs : FS ℕ
  outcome : CloseOutcome
  log : List String

/-- Fallback info object built when the post-download info query rejects:
placeholder title and artist, current year as upload date, genre Music. -/
def fallbackInfo (d : Download) (year : String) : VideoInfo :=
  { title := some (jsOr d.title "Unknown Title")
    uploader := some "Unknown Artist"
    upload_date := some year
    categories := some ["Music"]
    webpage_url := some d.url
    duration := some 0 }

/-- Job metadata derived from an info object (the assignment to
download.metadata in onCloseCallback). -/
def metadataOfInfo (info : VideoInfo) (year : String) : Meta :=
  { title := jsOr info.title "Unknown Title"
    artist := jsOr info.uploader "Unknown Artist"
    album := jsOr info.title "Unknown Album"
    year := if jsTruthy info.upload_date then (info.upload_date.getD "").take 4 else year
    genre :=
      match info.categories with
      | none => "Unknown"
      | some cats => jsOr cats.head? "Unknown"
    comment := jsOr info.webpage_url ""
    duration := info.duration.getD 0 }

/-- The catch block of onCloseCallback: delete the output file when it is
present, set the error status and reject. -/
def closeCatch (fs : FS ℕ) (d : Download) (msg : String) : CloseResult :=
  let fs' :=
    match d.outputPath with
    | some p => if (fs.lookup p).isSome then fs.erase p else fs
    | none => fs
  { download := { d with status := .error, error := some msg }
    fs := fs'
    outcome := .rejected msg
    log := [] }

/-- Exit-code rendering used in the ExtractionFailed message. -/
def exitCodeText (code : Option Int) : String :=
  match code with
  | some n => toString n
  | none => "null"

/-- The part_003 onCloseCallback.  A non-zero (or null) exit code records
the error and rejects without touching the file; a zero exit code verifies
that the output file exists and is non-empty (deleting an empty file),
resolves the info query with the fallback on failure, derives metadata,
invokes the tag writer inside a try/catch whose failure only logs, and
finalizes the job as completed with progress 100. -/
def onCloseCallback (env : CloseEnv) (fs : FS ℕ) (d : Download) : CloseResult :=
  if env.exitCode = some 0 then
    match d.outputPath with
    | none => closeCatch fs d "Output file was not created"
    | some p =>
      match fs.lookup p with
      | none => closeCatch fs d "Output file was not created"
      | some size =>
        if size = 0 then
          closeCatch (fs.erase p) d "Downloaded file is empty"
        else
          let info :=
            match env.infoResult with
            | .ok i => i
            | .error _ => fallbackInfo d env.currentYear
          let md := metadataOfInfo info env.currentYear
          { download :=
              { d with metadata := some md, status := .completed, progress := 100,
                       size := some size }
            fs := fs
            outcome := .resolved
            log :=
              if env.tagWriteOk then ["Successfully wrote metadata to " ++ p]
              else ["Failed to write metadata"] }
  else
    { download :=
        { d with status := .error,
                 error := some ("yt-dlp process exited with code " ++ exitCodeText env.exitCode) }
      fs := fs
      outcome := .rejected ("yt-dlp process exited with code " ++ exitCodeText env.exitCode)
      log := [] }

/-- Result of the pre-spawn phase of part_003 processDownload: the updated
job record and whether an extraction invocation was launched. -/
structure FirstPhaseResult where
  download : Download
  extractionStarted : Bool
  deriving Repr

/-- The pre-extraction part of part_003 processDownload: guard against
re-entry, set status downloading and progress 5, then run the info query.
A query failure is caught by the surrounding catch, which marks the job as
error; extraction is launched only when the query succeeded. -/
def processDownloadFirstPhase (infoResult : Except Unit VideoInfo) (d : Download) :
    FirstPhaseResult :=
  if d.status = .completed ∨ d.status = .downloading then
    { download := d, extractionStarted := false }
  else
    let d1 := { d with status := .downloading, progress := 5 }
    match infoResult with
    | .error _ =>
      { download :=
          { d1 with status := .error, error := some "Could not fetch video information" }
        extractionStarted := false }
    | .ok info =>
      { download := { d1 with title := some (jsOr info.title "Untitled") }
        extractionStarted := true }

/-! The backend variant of the controller
(mp4downloader/backend/src/controllers/downloadController.ts). -/

/-- Status enumeration of the backend controller. -/
inductive BStatus where
  | pending
  | downloading
  | converting
  | completed
  | error
  deriving DecidableEq, Repr

/-- One job record of the backend controller (its DownloadInfo). -/
structure BDownload where
  id : String
  url : String
  quality : ℕ
  status : BStatus
  progress : ℚ
  outputPath : String
  error : Option String := none
  size : Option ℕ := none
  duration : Option ℚ := none
  title : Option String := none
  deriving DecidableEq, Repr

/-- Post-exit reconciliation of the backend processDownload: the promise
around the subprocess resolves on exit code zero and rejects otherwise;
after it, the output file must exist (OutputMissing) and be non-empty
(OutputEmpty, the empty file is unlinked before the throw); the catch
deletes a leftover partial file and records the error. -/
def processOutcome (code : Option Int) (fs : FS ℕ) (d : BDownload) : BDownload × FS ℕ :=
  if code = some 0 then
    match fs.lookup d.outputPath with
    | none =>
      ({ d with status := .error,
                error := some ("Download completed but output file not found at " ++ d.outputPath) },
       fs)
    | some n =>
      if n = 0 then
        ({ d with status := .error, error := some "Downloaded file is empty" },
         fs.erase d.outputPath)
      else
        ({ d with status := .completed, progress := 100, size := some n }, fs)
  else
    ({ d with status := .error,
              error := some ("yt-dlp process exited with code " ++ exitCodeText code) },
     if (fs.lookup d.outputPath).isSome then fs.erase d.outputPath else fs)

/-! Registry state trace of the duplicated inline download block at the
end of part_003 processDownload (the block the status poller observes).
The straight-line code first sets status downloading with progress 10,
then derives a temporary output path, then sets progress back to 0 while
still downloading; each stdout chunk stores its unscaled percentage; the
close handler finalizes the job as completed with progress 100. -/

/-- Title sanitizer of the inline block (lowercased variant, underscores
for whitespace runs); only the fact that it is a pure function of the
title matters for the trace. -/
def sanitizeInline (title : Option String) (id : String) : String :=
  match title with
  | some t => String.mk ((stripNonWord t).toList.map Char.toLower)
  | none => id

/-- The sequence of job states written to the registry by the inline
download block on its success path, in program order. -/
def inlineBlockStates (dir : String) (d0 : Download) (info : VideoInfo)
    (chunks : List String) (fileSize : ℕ) : List Download :=
  let s1 := { d0 with status := .downloading, progress := 10 }
  let s2 := { s1 with outputPath := some (dir ++ "/" ++ sanitizeInline s1.title s1.id ++ ".mp3") }
  let s3 := { s2 with status := .downloading, progress := 0 }
  let s4 :=
    { s3 with title := info.title,
              outputPath := some (dir ++ "/" ++ sanitizedBase info.title s3.id ++ ".mp3") }
  let during := List.scanl rawStdout s4 chunks
  let dEnd := chunks.foldl rawStdout s4
  [s1, s2, s3] ++ during
    ++ [{ dEnd with status := .completed, progress := 100, size := some fileSize }]

/-- The monotonicity-and-completion property the specification asserts
about every observable job trace: progress never decreases between
consecutive states that are both downloading, and progress is exactly 100
iff the status is completed. -/
def ProgressInvariant (tr : List Download) : Prop :=
  (∀ i, (h : i + 1 < tr.length) →
    (tr.get ⟨i, Nat.lt_of_succ_lt h⟩).status = .downloading →
    (tr.get ⟨i + 1, h⟩).status = .downloading →
    (tr.get ⟨i, Nat.lt_of_succ_lt h⟩).progress ≤ (tr.get ⟨i + 1, h⟩).progress)
  ∧ ∀ d ∈ tr, (d.progress = 100 ↔ d.status = .completed)

/-! Playlist expansion (part_003 processPlaylist). -/

/-- One line of the flat-playlist enumeration output (a JSON item
descriptor); every field may be missing. -/
structure PlaylistItem where
  url : Option String := none
  id : String := ""
  title : Option String := none
  uploader : Option String := none
  playlist_title : Option String := none
  upload_date : Option String := none
  webpage_url : Option String := none
  duration : Option ℚ := none
  deriving DecidableEq, Repr

/-- Child job synthesized for one playlist item: canonical URL from the
item (or composed from its id), queued at progress 0, tagged with the
playlist id, carrying inherited metadata hints. -/
def childJobOfItem (pid childId year : String) (v : PlaylistItem) : Download :=
  { id := childId
    url := jsOr v.url ("https://youtube.com/watch?v=" ++ v.id)
    status := .queued
    progress := 0
    playlistId := some pid
    title := some (jsOr v.title "Unknown Title")
    metadata := some
      { title := jsOr v.title "Unknown Title"
        artist := jsOr v.uploader "Unknown Artist"
        album := jsOr v.playlist_title "Unknown Playlist"
        year := if jsTruthy v.upload_date then (v.upload_date.getD "").take 4 else year
        genre := "Music"
        comment := jsOr v.webpage_url ""
        duration := v.duration.getD 0 } }

/-- The part_003 processPlaylist after enumeration: zero items throw
NoItemsFound; otherwise one child job per item is created and registered,
and the playlist id together with the child jobs is returned.  Fresh ids
are supplied by `childIds` (uuidv4 in the source). -/
def processPlaylist (videos : List PlaylistItem) (pid : String) (childIds : ℕ → String)
    (year : String) : Except String (String × List Download) :=
  if videos.length = 0 then
    .error "No videos found in playlist"
  else
    .ok (pid, videos.enum.map (fun iv => childJobOfItem pid (childIds iv.1) year iv.2))

/-! Metadata tagging (MetadataService.writeTags). -/

/-- Incoming metadata of writeTags (the Metadata interface); every field
optional. -/
structure TagInput where
  title : Option String := none
  artist : Option String := none
  album : Option String := none
  year : Option String := none
  genre : Option String := none
  comment : Option String := none
  deriving DecidableEq, Repr

/-- A file on disk as the tagger sees it: opaque audio payload plus an
optional tag container. -/
structure AudioFile where
  audio : ℕ
  tags : Option TagInput := none
  deriving DecidableEq, Repr

/-- The merge of incoming metadata with the file's existing tags: incoming
truthy fields win, absent ones fall back to existing values, album and
genre fall back further to fixed defaults, and the comment gains a Source
line.  (The source accumulates existing comment frames into a joined text;
here the existing comment is a single optional entry.) -/
def mergeTags (inp : TagInput) (old : Option TagInput) : TagInput :=
  let o := old.getD {}
  { title := jsOrOpt inp.title o.title
    artist := jsOrOpt inp.artist o.artist
    album := some (jsOr inp.album (jsOr o.album "Unknown Album"))
    year := jsOrOpt inp.year o.year
    genre := some (jsOr inp.genre (jsOr o.genre "Unknown Genre"))
    comment := some ((jsOr inp.comment "") ++ "\nSource: " ++ jsOr inp.comment "Unknown") }

/-- Outcome of the NodeID3.write call: it may throw or report a boolean. -/
inductive WriteOutcome where
  | threw
  | returned (b : Bool)
  deriving DecidableEq, Repr

/-- Environment of one writeTags invocation: whether the access/stat check
passes, whether reading the existing tags succeeds (failure is tolerated),
the NodeID3.write outcome, and whether the verification read-back
succeeds. -/
structure TagEnv where
  accessOk : Bool
  parseOk : Bool
  writeOutcome : WriteOutcome
  readBackOk : Bool
  deriving DecidableEq, Repr

/-- MetadataService.writeTags.  Every failure path returns false through a
catch; no exception escapes.  A backup copy is taken before the mutating
write; on write failure or verification failure the backup is renamed back
over the original; on verified success the backup is unlinked and true is
returned. -/
def writeTags (env : TagEnv) (inp : TagInput) (fs : FS AudioFile) (filePath : String) :
    Bool × FS AudioFile :=
  match fs.lookup filePath with
  | none => (false, fs)
  | some file =>
    if ¬ env.accessOk then (false, fs)
    else
      let old := if env.parseOk then file.tags else none
      let merged := mergeTags inp old
      let backupPath := filePath ++ ".bak"
      let fs1 := fs.set backupPath file
      match env.writeOutcome with
      | .threw => (false, fs1.rename backupPath filePath)
      | .returned false => (false, fs1.rename backupPath filePath)
      | .returned true =>
        let fs2 := fs1.set filePath { file with tags := some merged }
        if env.readBackOk then (true, fs2.erase backupPath)
        else (false, fs2.rename backupPath filePath)

/-! Status endpoint of the backend controller (getDownloadStatus). -/

/-- One element of the status response array: either the job's status
record or a not-found marker carrying the requested id. -/
structure StatusEntry where
  id : String
  status : Option BStatus := none
  progress : Option ℚ := none
  error : Option String := none
  size : Option ℕ := none
  duration : Option ℚ := none
  title : Option String := none
  deriving DecidableEq, Repr

/-- The response record built for a known job. -/
def statusEntryOf (d : BDownload) : StatusEntry :=
  { id := d.id
    status := some d.status
    progress := some d.progress
    error := d.error
    size := d.size
    duration := d.duration
    title := d.title }

/-- The response entry built for an unknown id. -/
def notFoundEntry (id : String) : StatusEntry :=
  { id := id, error := some "Download not found" }

/-- JS String.split on a single comma: every separator splits, empty
fields are preserved, and the result is never empty. -/
def splitComma : List Char → List (List Char)
  | [] => [[]]
  | c :: rest =>
    if c = ',' then [] :: splitComma rest
    else
      match splitComma rest with
      | [] => [[c]]
      | s :: ss => (c :: s) :: ss

/-- The backend getDownloadStatus: the ids query parameter is split on
commas (absent parameter gives the empty list and a 400); each requested
id is looked up in the registry and mapped to its status record or to a
not-found entry, in request order. -/
def getDownloadStatus (downloads : FS BDownload) (ids : Option String) :
    Except String (List StatusEntry) :=
  let idList : List String :=
    match ids with
    | some s => (splitComma s.toList).map (fun cs => String.mk cs)
    | none => []
  if idList.length = 0 then
    .error "At least one download ID is required"
  else
    .ok (idList.map (fun id =>
      match downloads.lookup id with
      | some d => statusEntryOf d
      | none => notFoundEntry id))

/-! External invocations of the extraction binary. -/

/-- How a child process is started: either a command string handed to a
shell (child_process exec) or a program with a discrete argument vector
(child_process spawn). -/
inductive Invocation where
  | shell (cmd : String)
  | argv (prog : String) (args : List String)
  deriving DecidableEq, Repr

/-- The part_003 info query: exec of a command string with the URL
interpolated between double quotes. -/
def getVideoInfoInvocation (url : String) : Invocation :=
  .shell ("yt-dlp --dump-json --no-warnings \"" ++ url ++ "\"")

/-- The part_003 playlist enumeration: exec of a command string with the
URL interpolated between double quotes. -/
def playlistEnumInvocation (url : String) : Invocation :=
  .shell ("yt-dlp --flat-playlist --dump-json --no-warnings \"" ++ url ++ "\"")

/-- The part_004 info query: exec of a command string with the URL
interpolated without quoting. -/
def getVideoInfoInvocationV4 (url : String) : Invocation :=
  .shell ("yt-dlp --dump-json --no-warnings " ++ url)

/-- The download invocation (handleSingleDownload): spawn with an argument
vector whose last element is the URL. -/
def singleDownloadInvocation (quality : ℕ) (outputPath url : String) : Invocation :=
  .argv "yt-dlp"
    ["--extract-audio", "--audio-format", "mp3",
     "--audio-quality", toString quality,
     "--output", outputPath,
     "--no-mtime", "--add-metadata", "--embed-thumbnail",
     "--parse-metadata", "title:%(title)s",
     "--parse-metadata", "artist:%(uploader)s",
     "--parse-metadata", "album:%(title)s",
     "--parse-metadata", "comment:%(webpage_url)s",
     url]

/-- The property the specification asserts of an invocation: the URL is a
discrete element of an argument list, never part of a shell string. -/
def urlAsDiscreteArgument (inv : Invocation) (url : String) : Prop :=
  ∃ prog args, inv = .argv prog args ∧ url ∈ args

/-! Status endpoint of the part_003 controller (its getDownloadStatus,
lines 399-421): unlike the backend variant it never reads the ids query
parameter — it maps over every entry of the registry and returns one
record per registered job. -/

/-- One element of the part_003 status response: built from a job record
unconditionally; filePath is exposed only for completed jobs with an
output path (the path.relative rebasing is elided). -/
structure P3StatusEntry where
  id : String
  url : String
  status : Status
  progress : ℚ
  title : Option String
  filePath : Option String
  size : Option ℕ
  error : Option String
  deriving DecidableEq, Repr

/-- The response record part_003 builds for one registered job. -/
def p3StatusEntryOf (d : Download) : P3StatusEntry :=
  { id := d.id
    url := d.url
    status := d.status
    progress := d.progress
    title := d.title
    filePath := if d.status = .completed then d.outputPath else none
    size := d.size
    error := d.error }

/-- The part_003 getDownloadStatus: one entry per registered job, in
registry order, with the request's ids parameter never consulted. -/
def getDownloadStatusAllP3 (downloads : FS Download) : List P3StatusEntry :=
  downloads.map (fun kv => p3StatusEntryOf kv.2)

/-! Helper lemmas. -/

theorem backupPath_ne (p : String) : p ≠ p ++ ".bak" := by
  intro h
  have hlen := congrArg String.length h
  rw [String.length_append, show (".bak" : String).length = 4 from rfl] at hlen
  omega

theorem splitComma_length_pos (cs : List Char) : 0 < (splitComma cs).length := by
  induction cs with
  | nil => simp [splitComma]
  | cons c rest ih =>
    by_cases h : c = ','
    · simp [splitComma, h]
    · simp only [splitComma, h, if_false]
      cases hsp : splitComma rest with
      | nil => simp
      | cons s ss => simp

theorem FS.lookup_mem {α : Type} (fs : FS α) (k : String) (v : α)
    (h : fs.lookup k = some v) : (k, v) ∈ fs := by
  induction fs with
  | nil => simp [FS.lookup] at h
  | cons kv fs ih =>
    obtain ⟨k', v'⟩ := kv
    by_cases hk : k' = k
    · subst hk
      simp [FS.lookup] at h
      simp [h]
    · simp [FS.lookup, hk] at h
      simp [ih h]

theorem rawStdout_status (d : Download) (c : String) : (rawStdout d c).status = d.status := by
  unfold rawStdout
  cases findDownloadPercent c.toList <;> rfl

theorem scanl_rawStdout_status (s : Download) (chunks : List String)
    (d : Download) (hd : d ∈ List.scanl rawStdout s chunks) : d.status = s.status := by
  induction chunks generalizing s with
  | nil => simp [List.scanl_nil] at hd; simp [hd]
  | cons c cs ih =>
    rw [List.scanl_cons] at hd
    rcases List.mem_append.mp hd with h | h
    · simp at h; simp [h]
    · rw [ih (rawStdout s c) h, rawStdout_status]

/-! Claim theorems. -/

/-- C1: for every job whose extraction subprocess exits, a zero exit code
requires the output file to exist (OutputMissing error otherwise) and to
be non-empty (OutputEmpty error otherwise, with the empty file deleted);
and every job failing for one of the three reasons (non-zero exit, missing
output, empty output) ends with status error and no file at its
outputPath. -/
theorem c1_exit_verification_and_cleanup (code : Option Int) (fs : FS ℕ) (d : BDownload) :
    (code = some 0 → fs.lookup d.outputPath = none →
        (processOutcome code fs d).1.status = .error ∧
        (processOutcome code fs d).1.error =
          some ("Download completed but output file not found at " ++ d.outputPath))
    ∧ (code = some 0 → fs.lookup d.outputPath = some 0 →
        (processOutcome code fs d).1.status = .error ∧
        (processOutcome code fs d).1.error = some "Downloaded file is empty")
    ∧ ((code ≠ some 0 ∨ fs.lookup d.outputPath = none ∨ fs.lookup d.outputPath = some 0) →
        (processOutcome code fs d).1.status = .error ∧
        (processOutcome code fs d).2.lookup d.outputPath = none)
    ∧ (∀ n, code = some 0 → fs.lookup d.outputPath = some n → n ≠ 0 →
        (processOutcome code fs d).1.status = .completed) := by
  refine ⟨?_, ?_, ?_, ?_⟩
  · intro hc hl
    simp [processOutcome, hc, hl]
  · intro hc hl
    simp [processOutcome, hc, hl]
  · intro hfail
    by_cases hc : code = some 0
    · rcases hfail with h | h | h
      · exact absurd hc h
      · simp [processOutcome, hc, h]
      · simp [processOutcome, hc, h]
    · cases hl : fs.lookup d.outputPath with
      | none => simp [processOutcome, hc, hl]
      | some n => simp [processOutcome, hc, hl]
  · intro n hc hl hn
    simp [processOutcome, hc, hl, hn]

/-- Sample backend job used by witnesses. -/
def sampleBJob : BDownload :=
  { id := "j1", url := "u", quality := 192, status := .downloading, progress := 30,
    outputPath := "out" }

/-- Witness for C1: a non-zero exit with a partial file present ends in
status error with the file removed. -/
theorem c1_witness :
    (processOutcome (some 1) [("out", 3)] sampleBJob).1.status = .error ∧
    (processOutcome (some 1) [("out", 3)] sampleBJob).2.lookup "out" = none := by
  have h := (c1_exit_verification_and_cleanup (some 1) [("out", 3)] sampleBJob).2.2.1
    (Or.inl (by decide))
  exact h

/-- C4: for a job whose extraction succeeded and was verified, a failing
metadata tag write never moves the job away from completed: it still
finishes with status completed and progress 100. -/
theorem c4_tag_failure_keeps_completed (env : CloseEnv) (fs : FS ℕ) (d : Download)
    (p : String) (n : ℕ)
    (hcode : env.exitCode = some 0) (hpath : d.outputPath = some p)
    (hfile : fs.lookup p = some n) (hn : n ≠ 0) (_htag : env.tagWriteOk = false) :
    (onCloseCallback env fs d).download.status = .completed
    ∧ (onCloseCallback env fs d).download.progress = 100 := by
  simp [onCloseCallback, hcode, hpath, hfile, hn]

/-- Sample close environment with a failing tag write. -/
def sampleCloseEnv : CloseEnv :=
  { exitCode := some 0, infoResult := .ok {}, tagWriteOk := false, currentYear := "2025" }

/-- Sample part_003 job whose extraction has produced a file at "out". -/
def sampleJob : Download :=
  { mkJob "j1" "u" with status := .downloading, progress := 50, outputPath := some "out" }

/-- Witness for C4: concrete verified download with a failing tag write
still completes at progress 100. -/
theorem c4_witness :
    (onCloseCallback sampleCloseEnv [("out", 5)] sampleJob).download.status = .completed
    ∧ (onCloseCallback sampleCloseEnv [("out", 5)] sampleJob).download.progress = 100 := by
  exact c4_tag_failure_keeps_completed sampleCloseEnv [("out", 5)] sampleJob "out" 5
    rfl rfl rfl (by decide) rfl

/-- C2: a playlist whose enumeration yields N items expands to exactly one
playlist record and exactly N child jobs, each tagged with the playlist's
id; an enumeration with zero items fails with NoItemsFound and creates no
child jobs. -/
theorem c2_playlist_expansion (videos : List PlaylistItem) (pid : String)
    (childIds : ℕ → String) (year : String) :
    (videos = [] →
      processPlaylist videos pid childIds year = .error "No videos found in playlist")
    ∧ (videos ≠ [] → ∃ jobs,
        processPlaylist videos pid childIds year = .ok (pid, jobs)
        ∧ jobs.length = videos.length
        ∧ ∀ j ∈ jobs, j.playlistId = some pid) := by
  constructor
  · intro h
    subst h
    simp [processPlaylist]
  · intro h
    have hlen : videos.length ≠ 0 := fun h0 => h (List.length_eq_zero.mp h0)
    refine ⟨videos.enum.map (fun iv => childJobOfItem pid (childIds iv.1) year iv.2),
      ?_, ?_, ?_⟩
    · simp [processPlaylist, hlen]
    · simp [List.enum_length]
    · intro j hj
      obtain ⟨iv, _, rfl⟩ := List.mem_map.mp hj
      rfl

/-- Witness for C2: one enumerated item produces one tagged child job. -/
theorem c2_witness : ∃ jobs,
    processPlaylist [{ id := "v1" }] "pl1" (fun _ => "c1") "2025" = .ok ("pl1", jobs)
    ∧ jobs.length = 1
    ∧ ∀ j ∈ jobs, j.playlistId = some "pl1" := by
  have h := (c2_playlist_expansion [{ id := "v1" }] "pl1" (fun _ => "c1") "2025").2
    (by simp)
  obtain ⟨jobs, h1, h2, h3⟩ := h
  exact ⟨jobs, h1, by simpa using h2, h3⟩

/-- C10: writeTags is total at its boundary: every invocation returns a
boolean (no failure path escapes as an exception), and it returns true
exactly when the file was accessible, the tag write reported success and
the read-back verification succeeded. -/
theorem c10_writeTags_total (env : TagEnv) (inp : TagInput) (fs : FS AudioFile)
    (p : String) :
    (writeTags env inp fs p).1 = true ↔
      ((fs.lookup p).isSome ∧ env.accessOk = true
        ∧ env.writeOutcome = .returned true ∧ env.readBackOk = true) := by
  unfold writeTags
  cases hl : fs.lookup p with
  | none => simp [hl]
  | some file =>
    by_cases ha : env.accessOk
    · cases hw : env.writeOutcome with
      | threw => simp [ha, hw]
      | returned b =>
        cases b with
        | false => simp [ha, hw]
        | true =>
          by_cases hr : env.readBackOk <;> simp [ha, hw, hr]
    · simp [ha]

/-- C8 counterexample: at a concrete URL, neither the info query nor the
playlist enumeration passes the URL as a discrete argument-list element —
both are shell command strings. -/
theorem c8_counterexample :
    ¬ (urlAsDiscreteArgument
          (getVideoInfoInvocation "https://example.com/watch?v=abc")
          "https://example.com/watch?v=abc"
        ∧ urlAsDiscreteArgument
          (playlistEnumInvocation "https://example.com/watch?v=abc&list=L")
          "https://example.com/watch?v=abc&list=L") := by
  rintro ⟨⟨prog, args, heq, -⟩, -⟩
  simp [getVideoInfoInvocation] at heq

/-- C8 amended: only the download invocation passes the URL as a discrete
element of an argument vector; the info query and the playlist enumeration
interpolate the URL into a shell command string (quoted in the part_003
controller, unquoted in the part_004 variant). -/
theorem c8_amended (quality : ℕ) (outputPath url : String) :
    urlAsDiscreteArgument (singleDownloadInvocation quality outputPath url) url
    ∧ (∃ s t, getVideoInfoInvocation url = .shell (s ++ url ++ t))
    ∧ (∃ s t, playlistEnumInvocation url = .shell (s ++ url ++ t))
    ∧ (∃ s, getVideoInfoInvocationV4 url = .shell (s ++ url)) := by
  refine ⟨⟨"yt-dlp", _, rfl, ?_⟩, ⟨_, "\"", rfl⟩, ⟨_, "\"", rfl⟩, ⟨_, rfl⟩⟩
  simp

/-- C6: progress is initialized to 10 before the download spawn, and every
stdout chunk reporting percentage p while the job is downloading updates
progress to 10 + 0.8 * p, scaling download activity onto the 10 to 90
range. -/
theorem c6_progress_scaling :
    (∀ dir info d, (handleSingleDownloadInit dir info d).progress = 10)
    ∧ ∀ (d : Download) (chunk : String) (p : ℚ),
        d.status = .downloading → findDownloadPercent chunk.toList = some p →
        0 ≤ p → p ≤ 100 →
        (executeYtDlpStdout d chunk).progress = 10 + 0.8 * p := by
  constructor
  · intro dir info d
    rfl
  · intro d chunk p hst hp h0 h100
    simp only [executeYtDlpStdout, hp, hst, if_pos]
    ring

/-- Witness for C6: a chunk reporting 42.5 percent moves a downloading job
to progress 44. -/
theorem c6_witness :
    (executeYtDlpStdout { mkJob "j1" "u" with status := .downloading }
      "[download]  42.5% of 3MiB").progress = 44 := by
  have hp : findDownloadPercent "[download]  42.5% of 3MiB".toList
      = some (percentVal ['4', '2'] ['5']) := rfl
  have hval : percentVal ['4', '2'] ['5'] = 85 / 2 := by
    rw [percentVal, show digitsNat ['4', '2'] = 42 from rfl,
      show digitsNat ['5'] = 5 from rfl]
    norm_num
  have h := c6_progress_scaling.2 { mkJob "j1" "u" with status := .downloading }
    "[download]  42.5% of 3MiB" (percentVal ['4', '2'] ['5']) rfl hp
    (by rw [hval]; norm_num) (by rw [hval]; norm_num)
  rw [h, hval]
  norm_num

/-- Specification of FS.rename when the source exists: the source entry is
gone and the destination holds its payload. -/
theorem FS.rename_spec {α : Type} (fs : FS α) (src dst : String) (v : α)
    (h : fs.lookup src = some v) (hne : dst ≠ src) :
    ((fs.rename src dst).lookup src = none) ∧ ((fs.rename src dst).lookup dst = some v) := by
  unfold FS.rename
  rw [h]
  constructor
  · rw [FS.lookup_set_ne _ _ _ _ (Ne.symm hne), FS.lookup_erase_self]
  · rw [FS.lookup_set_self]

/-- C3: writeTags takes a backup before mutating; after every invocation
on an accessible file, no backup file remains (it was restored or
deleted); on failure the original content is back in place, on success the
file carries the merged tags. -/
theorem c3_backup_protocol (env : TagEnv) (inp : TagInput) (fs : FS AudioFile)
    (p : String) (file : AudioFile)
    (hfile : fs.lookup p = some file)
    (hbak : fs.lookup (p ++ ".bak") = none) :
    (writeTags env inp fs p).2.lookup (p ++ ".bak") = none
    ∧ ((writeTags env inp fs p).1 = false → (writeTags env inp fs p).2.lookup p = some file)
    ∧ ((writeTags env inp fs p).1 = true → (writeTags env inp fs p).2.lookup p =
        some { file with tags := some (mergeTags inp (if env.parseOk then file.tags else none)) }) := by
  have hne : p ≠ p ++ ".bak" := backupPath_ne p
  have hne' : p ++ ".bak" ≠ p := Ne.symm hne
  by_cases ha : env.accessOk
  · cases hw : env.writeOutcome with
    | threw =>
      have hb : (fs.set (p ++ ".bak") file).lookup (p ++ ".bak") = some file :=
        FS.lookup_set_self _ _ _
      have hr := FS.rename_spec (fs.set (p ++ ".bak") file) (p ++ ".bak") p file hb hne
      simp only [writeTags, hfile, ha, hw, not_true, if_false]
      exact ⟨hr.1, fun _ => hr.2, fun hcontra => absurd hcontra (by simp)⟩
    | returned b =>
      cases b with
      | false =>
        have hb : (fs.set (p ++ ".bak") file).lookup (p ++ ".bak") = some file :=
          FS.lookup_set_self _ _ _
        have hr := FS.rename_spec (fs.set (p ++ ".bak") file) (p ++ ".bak") p file hb hne
        simp only [writeTags, hfile, ha, hw, not_true, if_false]
        exact ⟨hr.1, fun _ => hr.2, fun hcontra => absurd hcontra (by simp)⟩
      | true =>
        by_cases hrb : env.readBackOk
        · simp only [writeTags, hfile, ha, hw, hrb, not_true, if_false, if_true]
          refine ⟨FS.lookup_erase_self _ _, fun hcontra => absurd hcontra (by simp), fun _ => ?_⟩
          rw [FS.lookup_erase_ne _ _ _ hne, FS.lookup_set_self]
        · have hb : (((fs.set (p ++ ".bak") file)).set p
              { file with tags := some (mergeTags inp (if env.parseOk then file.tags else none)) }).lookup
              (p ++ ".bak") = some file := by
            rw [FS.lookup_set_ne _ _ _ _ hne', FS.lookup_set_self]
          have hr := FS.rename_spec _ (p ++ ".bak") p file hb hne
          simp only [writeTags, hfile, ha, hw, hrb, not_true, if_false]
          exact ⟨hr.1, fun _ => hr.2, fun hcontra => absurd hcontra (by simp)⟩
  · simp only [writeTags, hfile, ha, not_false_iff, if_true]
    exact ⟨hbak, fun _ => hfile, fun hcontra => absurd hcontra (by simp)⟩

/-- Sample tagging environment whose NodeID3.write reports failure. -/
def sampleTagEnvFail : TagEnv :=
  { accessOk := true, parseOk := true, writeOutcome := .returned false, readBackOk := true }

/-- Witness for C3: a failing tag write on a concrete file leaves no
backup behind and the original content restored. -/
theorem c3_witness :
    (writeTags sampleTagEnvFail {} [("f.mp3", { audio := 7 })] "f.mp3").2.lookup "f.mp3.bak" = none
    ∧ (writeTags sampleTagEnvFail {} [("f.mp3", { audio := 7 })] "f.mp3").2.lookup "f.mp3" =
        some { audio := 7 } := by
  have h := c3_backup_protocol sampleTagEnvFail {} [("f.mp3", { audio := 7 })] "f.mp3"
    { audio := 7 } rfl rfl
  exact ⟨h.1, h.2.1 rfl⟩

/-- C5 counterexample: the registry trace written by the inline download
block violates the claimed invariant at a concrete job — it moves progress
from 10 back to 0 between two consecutive states that are both
downloading. -/
theorem c5_counterexample :
    ¬ ProgressInvariant (inlineBlockStates "dl" (mkJob "j" "u") {} [] 1) := by
  intro h
  have h2 : (1 : ℕ) + 1 < (inlineBlockStates "dl" (mkJob "j" "u") {} [] 1).length := by
    rw [show (inlineBlockStates "dl" (mkJob "j" "u") {} [] 1).length = 5 from rfl]
    omega
  have hmono := h.1 1 h2 rfl rfl
  rw [show ((inlineBlockStates "dl" (mkJob "j" "u") {} [] 1).get
        ⟨1, Nat.lt_of_succ_lt h2⟩).progress = 10 from rfl,
      show ((inlineBlockStates "dl" (mkJob "j" "u") {} [] 1).get
        ⟨1 + 1, h2⟩).progress = 0 from rfl] at hmono
  norm_num at hmono

/-- C5 amended: progress is not monotone while downloading (the inline
block resets it from 10 to 0, and unscaled stdout percentages can reach
100 before completion), but completion always carries progress 100: every
state of the inline block's trace with status completed has progress 100,
and the backend outcome reconciliation sets progress 100 whenever it sets
status completed. -/
theorem c5_amended :
    (∀ dir d0 info chunks n, ∀ s ∈ inlineBlockStates dir d0 info chunks n,
        s.status = .completed → s.progress = 100)
    ∧ (∀ code fs d, (processOutcome code fs d).1.status = .completed →
        (processOutcome code fs d).1.progress = 100) := by
  constructor
  · intro dir d0 info chunks n s hs hcomp
    simp only [inlineBlockStates, List.mem_append, List.mem_cons,
      List.not_mem_nil, or_false, List.mem_singleton] at hs
    rcases hs with ((h | h | h) | h) | h
    · subst h; simp at hcomp
    · subst h; simp at hcomp
    · subst h; simp at hcomp
    · have hst := scanl_rawStdout_status _ chunks s h
      rw [hcomp] at hst
      simp at hst
    · subst h; rfl
  · intro code fs d hcomp
    by_cases hc : code = some 0
    · cases hl : fs.lookup d.outputPath with
      | none => simp [processOutcome, hc, hl] at hcomp
      | some m =>
        by_cases hm : m = 0
        · simp [processOutcome, hc, hl, hm] at hcomp
        · simp [processOutcome, hc, hl, hm]
    · simp [processOutcome, hc] at hcomp

/-- Witness for C5 amended: a verified backend outcome reaches progress
100. -/
theorem c5_amended_witness :
    (processOutcome (some 0) [("out", 3)] sampleBJob).1.progress = 100 :=
  c5_amended.2 (some 0) [("out", 3)] sampleBJob rfl

/-- C7 counterexample: when the pre-extraction info query fails on a fresh
job, processDownload marks the job as error and never launches the
extraction — the failure is not tolerated, contradicting the claim. -/
theorem c7_counterexample :
    (processDownloadFirstPhase (Except.error ()) (mkJob "j1" "u")).download.status = .error
    ∧ (processDownloadFirstPhase (Except.error ()) (mkJob "j1" "u")).extractionStarted = false :=
  ⟨rfl, rfl⟩

/-- The truthiness of the current-year string. -/
theorem jsTruthy_of_ne (s : String) (h : s ≠ "") : jsTruthy (some s) = true := by
  simp [jsTruthy, h]

/-- JS or with an empty default on a present value is the value itself. -/
theorem jsOr_empty_default (s : String) : jsOr (some s) "" = s := by
  unfold jsOr
  by_cases h : s = "" <;> simp [h]

/-- C7 amended: only the post-extraction info query tolerates failure —
the close handler falls back to the placeholder title "Unknown Title" and
current-year metadata and still completes the job; the pre-extraction
query's failure aborts the job (see the counterexample). -/
theorem c7_amended (env : CloseEnv) (fs : FS ℕ) (d : Download) (p : String) (n : ℕ)
    (hcode : env.exitCode = some 0) (hpath : d.outputPath = some p)
    (hfile : fs.lookup p = some n) (hn : n ≠ 0)
    (hinfo : env.infoResult = Except.error ()) (htitle : d.title = none)
    (hy : env.currentYear ≠ "") (hy4 : env.currentYear.take 4 = env.currentYear) :
    (onCloseCallback env fs d).download.status = .completed
    ∧ (onCloseCallback env fs d).download.metadata =
        some { title := "Unknown Title", artist := "Unknown Artist",
               album := "Unknown Title", year := env.currentYear, genre := "Music",
               comment := d.url, duration := 0 } := by
  have hyt := jsTruthy_of_ne env.currentYear hy
  constructor
  · simp [onCloseCallback, hcode, hpath, hfile, hn]
  · simp [onCloseCallback, hcode, hpath, hfile, hn, hinfo, fallbackInfo,
      metadataOfInfo, htitle, hyt, hy4, jsOr_empty_default, jsOr]
    exact fun h => h.symm

/-- Sample close environment whose post-download info query fails. -/
def sampleCloseEnvInfoFail : CloseEnv :=
  { exitCode := some 0, infoResult := .error (), tagWriteOk := true, currentYear := "2025" }

/-- Sample job without a resolved title. -/
def sampleJobNoTitle : Download :=
  { mkJob "j2" "u2" with status := .downloading, progress := 50, outputPath := some "o2" }

/-- Witness for C7 amended: concrete job completing with the fallback
metadata. -/
theorem c7_witness :
    (onCloseCallback sampleCloseEnvInfoFail [("o2", 9)] sampleJobNoTitle).download.status
        = .completed
    ∧ (onCloseCallback sampleCloseEnvInfoFail [("o2", 9)] sampleJobNoTitle).download.metadata =
        some { title := "Unknown Title", artist := "Unknown Artist",
               album := "Unknown Title", year := "2025", genre := "Music",
               comment := "u2", duration := 0 } := by
  exact c7_amended sampleCloseEnvInfoFail [("o2", 9)] sampleJobNoTitle "o2" 9
    rfl rfl rfl (by decide) rfl rfl (by decide) (by decide)

/-- C9 counterexample: the part_003 getDownloadStatus ignores the ids
parameter.  With two registered jobs and a request naming only id "a",
the response has two entries — not one per requested id — and it contains
an entry for the unnamed job "x", falsifying the claim that jobs not named
in ids do not appear. -/
theorem c9_counterexample :
    (getDownloadStatusAllP3 [("a", mkJob "a" "u1"), ("x", mkJob "x" "u2")]).length = 2
    ∧ ¬ (∀ e ∈ getDownloadStatusAllP3 [("a", mkJob "a" "u1"), ("x", mkJob "x" "u2")],
        e.id ∈ (splitComma "a".toList).map (fun cs => String.mk cs)) := by
  constructor
  · rfl
  · intro h
    have hx := h (p3StatusEntryOf (mkJob "x" "u2"))
      (List.mem_cons_of_mem _ (List.mem_singleton_self _))
    rw [show (splitComma "a".toList).map (fun cs => String.mk cs) = ["a"] from rfl] at hx
    simp [p3StatusEntryOf, mkJob] at hx

/-- C9 amended: for the backend controller's handler — the variant that
actually consumes the ids parameter — a status request with a
comma-separated ids parameter returns exactly one entry per requested id
in request order: known ids map to the job's status record, unknown ids
map to a not-found entry carrying the id (error literal "Download not
found"), and no job outside the requested ids appears in the response.
The part_003 variant instead returns one entry for every registered job
(see the counterexample). -/
theorem c9_status_endpoint (downloads : FS BDownload) (s : String)
    (hwf : ∀ kd ∈ downloads, (kd : String × BDownload).2.id = kd.1) :
    ∃ l, getDownloadStatus downloads (some s) = .ok l
      ∧ List.Forall₂ (fun id e =>
            (downloads.lookup id = none → e = notFoundEntry id)
            ∧ ∀ d, downloads.lookup id = some d → e = statusEntryOf d)
          ((splitComma s.toList).map (fun cs => String.mk cs)) l
      ∧ ∀ e ∈ l, e.id ∈ (splitComma s.toList).map (fun cs => String.mk cs) := by
  have hpos : ((splitComma s.toList).map (fun cs => String.mk cs)).length ≠ 0 := by
    rw [List.length_map]
    exact Nat.pos_iff_ne_zero.mp (splitComma_length_pos _)
  refine ⟨((splitComma s.toList).map (fun cs => String.mk cs)).map (fun id =>
      match downloads.lookup id with
      | some d => statusEntryOf d
      | none => notFoundEntry id), ?_, ?_, ?_⟩
  · simp only [getDownloadStatus, hpos, if_false]
  · rw [List.forall₂_map_right_iff, List.forall₂_same]
    intro id _
    cases hl : downloads.lookup id with
    | none =>
      exact ⟨fun _ => rfl, fun d hd => Option.noConfusion hd⟩
    | some d =>
      refine ⟨fun hnone => Option.noConfusion hnone, fun d2 hd2 => ?_⟩
      injection hd2 with h
      subst h
      rfl
  · intro e he
    obtain ⟨id, hidmem, rfl⟩ := List.mem_map.mp he
    cases hl : downloads.lookup id with
    | none => simpa [hl, notFoundEntry] using hidmem
    | some d =>
      have hd : d.id = id := hwf (id, d) (FS.lookup_mem downloads id d hl)
      simpa [hl, statusEntryOf, hd] using hidmem

/-- Sample registry holding one job under id "a". -/
def sampleRegistry : FS BDownload := [("a", { sampleBJob with id := "a" })]

/-- Witness for C9: requesting ids "a,b" against the sample registry. -/
theorem c9_witness :
    ∃ l, getDownloadStatus sampleRegistry (some "a,b") = .ok l
      ∧ List.Forall₂ (fun id e =>
            (sampleRegistry.lookup id = none → e = notFoundEntry id)
            ∧ ∀ d, sampleRegistry.lookup id = some d → e = statusEntryOf d)
          ((splitComma "a,b".toList).map (fun cs => String.mk cs)) l
      ∧ ∀ e ∈ l, e.id ∈ (splitComma "a,b".toList).map (fun cs => String.mk cs) := by
  refine c9_status_endpoint sampleRegistry "a,b" ?_
  intro kd hkd
  simp only [sampleRegistry, List.mem_singleton] at hkd
  rw [hkd]

end Testelemel
